import Mathlib

/-!
Shallow embedding of `src/socksync/groups.py`: the group/subscription protocol
engine (abstract group, paginated list, remote/local function groups).

Modelling conventions:
* Connections (sockets) are opaque handles, modelled as `Nat`.
* Python `dict`s are modelled as functions into `Option`; Python `set`s as
  duplicate-free `List`s (membership-guarded add, `remove` raising `KeyError`).
* A Python exception is an explicit `Option PyError` component of each
  operation's result; the state returned alongside an error is the state at the
  raise point (Python does not roll back partial mutations).
* `uuid4()` is modelled by a fresh-name counter: each generated call id is the
  current counter value and the counter increments (uuid uniqueness assumption).
* Message envelopes (`type`/`name` fields added by `_to_json`) carry no
  protocol-relevant information for these claims and are elided from `Msg`
  constructors except where the payload itself matters.
* The `Thread` spawned by `SockSyncFunctionLocal` is modelled by emitting its
  eventual `return` send immediately.
-/

namespace SockSync

/-- Python exceptions that the embedded code can raise. -/
inductive PyError where
  | keyError
  | indexError
  | attrError
  | zeroDivError
  | paginatorError
  deriving DecidableEq

/-- Resolve a Python sequence index (negative indices count from the end). -/
def pyIdx (len : Nat) (i : Int) : Option Nat :=
  if 0 ≤ i then (if i < len then some i.toNat else none)
  else (if 0 ≤ i + len then some (i + len).toNat else none)

/-- Python `l[i]` for reading, `none` = `IndexError`. -/
def pyGet {α : Type} (l : List α) (i : Int) : Option α :=
  (pyIdx l.length i).bind l.get?

/-- Python `l[i] = a` at a resolvable index (callers check resolvability). -/
def pySetAt {α : Type} (l : List α) (i : Int) (a : α) : List α :=
  match pyIdx l.length i with
  | some n => l.set n a
  | none => l

/-- Python `l.pop(i)`: `none` = `IndexError`, otherwise the shrunk list. -/
def pyPop {α : Type} (l : List α) (i : Int) : Option (List α) :=
  (pyIdx l.length i).map l.eraseIdx

/-- Python `list.insert` position clamping: negative indices count from the
end and clamp at 0, large indices clamp to the length. -/
def pyInsertPos (len : Nat) (i : Int) : Nat :=
  if i < 0 then (i + len).toNat else min i.toNat len

/-- Python `range(a, b)` over integers. -/
def intRange (a b : Int) : List Int :=
  (List.range (b - a).toNat).map (fun k : Nat => a + (k : Int))

/-- Python `needle in hay` substring containment on strings. -/
def strContainsSub (hay needle : String) : Bool :=
  (List.range (hay.data.length + 1)).any
    (fun k => (hay.data.drop k).take needle.data.length == needle.data)

/-- Python dict update `m[k] = v`. -/
def dupd {κ β : Type} [DecidableEq κ] (m : κ → Option β) (k : κ) (v : β) :
    κ → Option β :=
  fun q => if q = k then some v else m q

/-- Python dict `m.pop(k, default)` / `del m[k]` (key removal). -/
def derase {κ β : Type} [DecidableEq κ] (m : κ → Option β) (k : κ) :
    κ → Option β :=
  fun q => if q = k then none else m q

/-- Python `set.add` on a duplicate-free list. -/
def setAdd (s : List Nat) (x : Nat) : List Nat :=
  if x ∈ s then s else x :: s

/-- `SockSyncListItem`: id + value wrapper (`value` payloads modelled as `Int`). -/
structure SockSyncListItem where
  id : String
  value : Int
  deriving DecidableEq

/-- An inbound list-command payload: each field is `some` exactly when the
corresponding key is present in the Python `data` dict. -/
structure RawItem where
  id : Option String := none
  value : Option Int := none
  deriving DecidableEq

structure Payload where
  id : Option String := none
  value : Option Int := none
  index : Option Int := none
  page : Option Int := none
  page_size : Option Int := none
  items : Option (List RawItem) := none
  total_item_count : Option Int := none
  deriving DecidableEq

/-- An inbound function-command payload (call ids modelled as `Nat`, see the
uuid convention in the file header). -/
structure FPayload where
  id : Option Nat := none
  value : Option Int := none
  args : Option Int := none
  deriving DecidableEq

/-- Outbound wire messages (envelope fields elided, see file header). -/
inductive Msg where
  | insertMsg (id : String) (value : Int) (index : Int)
  | deleteMsg (id : String)
  | setMsg (id : String) (value : Int)
  | setAllReply (page : Int) (total : Int) (items : List SockSyncListItem)
  | setAllEcho (data : Payload)
  | nameError (type_ : String) (name : String) (id : String)
  | generalError (text : String)
  | callMsg (id : Nat)
  | returnNotCallable (id : Nat)
  | returnMsg (id : Nat) (value : Option Int)
  | pyNone
  deriving DecidableEq

/-- One delivery: (receiving socket, message). -/
abbrev Send : Type := Nat × Msg

/-- State of a `SockSyncList` (fields named after the Python attributes). -/
structure ListState where
  name : String
  page_size : Int
  id_map : String → Option Int
  values : List SockSyncListItem
  count : Int
  current_page : Int
  subscriber_sockets : List Nat
  subscriber_pages : Option Nat → Option (Int × Int)

/-- `SockSyncList.__init__`. -/
def mkList (name : String) (page_size : Int := 10) : ListState :=
  ⟨name, page_size, fun _ => none, [], 0, 0, [], fun _ => none⟩

/-- The reindex loops of `insert`/`delete`:
`for i in is: self._id_map[self._values[i].id] = i` (an invalid `i` raises
`IndexError`; the map built so far is kept). -/
def reindexLoop (vs : List SockSyncListItem) :
    (String → Option Int) → List Int → (String → Option Int) × Option PyError
  | m, [] => (m, none)
  | m, i :: rest =>
    match pyGet vs i with
    | none => (m, some PyError.indexError)
    | some it => reindexLoop vs (dupd m it.id i) rest

/-- `SockSyncGroup._send_json`: send to every subscriber except `ignore`. -/
def send_json (subs : List Nat) (j : Msg) (ignore : Option Nat) : List Send :=
  subs.filterMap (fun s => if some s ≠ ignore then some (s, j) else none)

/-- The subscriber loop of `_send_json_page`: for each subscriber look up its
stored window (`KeyError` if absent, aborting the loop with the sends made so
far) and deliver iff the socket is not ignored and the window covers `idx`. -/
def sendPageLoop (pages : Option Nat → Option (Int × Int)) (idx : Int) (j : Msg)
    (ignore : Option Nat) : List Nat → List Send × Option PyError
  | [] => ([], none)
  | s :: rest =>
    match pages (some s) with
    | none => ([], some PyError.keyError)
    | some (page, psz) =>
      let r := sendPageLoop pages idx j ignore rest
      if some s ≠ ignore ∧ page * psz ≤ idx ∧ idx < page * psz + psz
      then ((s, j) :: r.1, r.2) else r

/-- `SockSyncList._send_json_page`: resolve `index = self._id_map[id_]`
(`KeyError` if absent), then run the windowed subscriber loop. -/
def send_json_page (σ : ListState) (id_ : String) (j : Msg)
    (ignore : Option Nat) : List Send × Option PyError :=
  match σ.id_map id_ with
  | none => ([], some PyError.keyError)
  | some idx => sendPageLoop σ.subscriber_pages idx j ignore σ.subscriber_sockets

/-- `SockSyncList.insert`: insert the item, reindex `range(index, len(values))`,
broadcast to covering windows, then `self._count += 1` (skipped if the
broadcast raised).  The caller supplies `id_` (a generated uuid when the
Python default was used). -/
def listInsert (σ : ListState) (index : Int) (v : Int) (id_ : String)
    (ignore : Option Nat) : ListState × List Send × Option PyError :=
  let values' := σ.values.insertIdx (pyInsertPos σ.values.length index) ⟨id_, v⟩
  match reindexLoop values' σ.id_map (intRange index (values'.length : Int)) with
  | (m', some e) => ({σ with values := values', id_map := m'}, [], some e)
  | (m', none) =>
    let σ1 := {σ with values := values', id_map := m'}
    let r := send_json_page σ1 id_ (Msg.insertMsg id_ v index) ignore
    match r.2 with
    | some e => (σ1, r.1, some e)
    | none => ({σ1 with count := σ1.count + 1}, r.1, none)

/-- `SockSyncList.append`. -/
def listAppend (σ : ListState) (v : Int) (id_ : String) :
    ListState × List Send × Option PyError :=
  listInsert σ (σ.values.length : Int) v id_ none

/-- `SockSyncList.delete`: look up the index (`KeyError` if unknown id), pop the
item, drop the id key, reindex `range(index, len(values) - 1)`, broadcast,
then `self._count -= 1` (skipped if the broadcast raised). -/
def listDelete (σ : ListState) (id_ : String) (ignore : Option Nat) :
    ListState × List Send × Option PyError :=
  match σ.id_map id_ with
  | none => (σ, [], some PyError.keyError)
  | some index =>
    match pyPop σ.values index with
    | none => (σ, [], some PyError.indexError)
    | some values' =>
      let m1 := derase σ.id_map id_
      match reindexLoop values' m1 (intRange index ((values'.length : Int) - 1)) with
      | (m2, some e) => ({σ with values := values', id_map := m2}, [], some e)
      | (m2, none) =>
        let σ1 := {σ with values := values', id_map := m2}
        let r := send_json_page σ1 id_ (Msg.deleteMsg id_) ignore
        match r.2 with
        | some e => (σ1, r.1, some e)
        | none => ({σ1 with count := σ1.count - 1}, r.1, none)

/-- `SockSyncList.get` (server-side, by id). -/
def listGet (σ : ListState) (id_ : String) : Option Int × Option PyError :=
  match σ.id_map id_ with
  | none => (none, some PyError.keyError)
  | some idx =>
    match pyGet σ.values idx with
    | none => (none, some PyError.indexError)
    | some it => (some it.value, none)

/-- Django `Paginator.num_pages` (orphans 0, `allow_empty_first_page`):
`ceil(max(1, count) / per_page)`; only called with `per_page ≠ 0`. -/
def numPages (count : Nat) (per : Int) : Int :=
  -(Int.fdiv (-(max 1 (count : Int))) per)

/-- The `func == "get"` branch of `SockSyncList._handle_func`: compute the
clamped window, store it as the requester's window, then answer with either the
page slice (`set_all`) or the single item (`set` / name error).
Result: (state, sends, returned payload, exception). -/
def handleGet (σ : ListState) (data : Payload) (socket : Option Nat) :
    ListState × List Send × Option Msg × Option PyError :=
  let per := min σ.page_size (data.page_size.getD σ.page_size)
  if per = 0 then (σ, [], none, some PyError.zeroDivError) else
  let page := max 0 (min (data.page.getD 0) (numPages σ.values.length per - 1))
  let σ' := {σ with subscriber_pages := dupd σ.subscriber_pages socket (page, per)}
  match data.id with
  | none =>
    if per < 0 then (σ', [], none, some PyError.paginatorError)
    else (σ', [], some (Msg.setAllReply page σ.count
      (((σ.values.drop (page * per).toNat).take per.toNat))), none)
  | some id_ =>
    match σ.id_map id_ with
    | some idx =>
      match pyGet σ.values idx with
      | none => (σ', [], none, some PyError.indexError)
      | some it => (σ', [], some (Msg.setMsg id_ it.value), none)
    | none =>
      match socket with
      | some s => (σ', [(s, Msg.nameError "list" σ.name id_)], none, none)
      | none => (σ', [], none, some PyError.attrError)

/-- `SockSyncList.set`: mutate the item's value in place, then broadcast the
dict produced by a recursive `self._handle_func("get", dict(id=id_, ...))`
call (note: that inner call runs with `socket=None` and stores a window under
the `None` key). -/
def listSet (σ : ListState) (id_ : String) (v : Int) (ignore : Option Nat) :
    ListState × List Send × Option PyError :=
  match σ.id_map id_ with
  | none => (σ, [], some PyError.keyError)
  | some idx =>
    match pyGet σ.values idx with
    | none => (σ, [], some PyError.indexError)
    | some it =>
      let σ1 := {σ with values := pySetAt σ.values idx {it with value := v}}
      let g := handleGet σ1 {id := some id_} none
      match g.2.2.2 with
      | some e => (g.1, [], some e)
      | none =>
        let r := send_json_page g.1 id_ ((g.2.2.1).getD Msg.pyNone) ignore
        (g.1, r.1, r.2)

/-- `SockSyncList._handle_func`: the list command state machine.  Note the
source guard of the `insert` branch tests `"value" in "data"` — substring
containment in the literal string `"data"`. -/
def listHandleFunc (σ : ListState) (func : String) (data : Payload)
    (socket : Option Nat) : ListState × List Send × Option Msg × Option PyError :=
  if func = "get" then handleGet σ data socket
  else if func = "set_all" then
    match data.items with
    | none => (σ, [], none, none)
    | some its =>
      let values' := its.filterMap (fun r =>
        match r.id, r.value with
        | some i, some v => some (⟨i, v⟩ : SockSyncListItem)
        | _, _ => none)
      match data.page with
      | none => ({σ with values := values'}, [], none, some PyError.keyError)
      | some pg =>
        match data.total_item_count with
        | none => ({σ with values := values', current_page := pg}, [], none,
            some PyError.keyError)
        | some tc =>
          ({σ with values := values', current_page := pg, count := tc},
            send_json σ.subscriber_sockets (Msg.setAllEcho data) socket, none, none)
  else if func = "insert" ∧ data.index.isSome ∧ strContainsSub "data" "value" = true
      ∧ data.id.isSome then
    match data.index, data.value, data.id with
    | some ix, some v, some id_ =>
      let r := listInsert σ ix v id_ socket
      (r.1, r.2.1, none, r.2.2)
    | some _, none, _ => (σ, [], none, some PyError.keyError)
    | _, _, _ => (σ, [], none, none)
  else if func = "set" ∧ data.value.isSome ∧ data.id.isSome then
    match data.value, data.id with
    | some v, some id_ =>
      let r := listSet σ id_ v socket
      (r.1, r.2.1, none, r.2.2)
    | _, _ => (σ, [], none, none)
  else if func = "delete" ∧ data.id.isSome then
    match data.id with
    | some id_ =>
      let r := listDelete σ id_ socket
      (r.1, r.2.1, none, r.2.2)
    | none => (σ, [], none, none)
  else (σ, [], none, none)

/-- `SockSyncGroup._socket_subscribed` (`set.add`). -/
def socket_subscribed (subs : List Nat) (s : Nat) : List Nat :=
  setAdd subs s

/-- `SockSyncGroup._socket_unsubscribed` (`set.remove`: `KeyError` when the
socket is not a subscriber, in which case the set is left unchanged). -/
def socket_unsubscribed (subs : List Nat) (s : Nat) : List Nat × Option PyError :=
  if s ∈ subs then (subs.erase s, none) else (subs, some PyError.keyError)

/-- `SockSyncList._socket_subscribed`: base add, then store the default window
`(0, self.page_size)`. -/
def list_socket_subscribed (σ : ListState) (s : Nat) : ListState :=
  {σ with subscriber_sockets := socket_subscribed σ.subscriber_sockets s,
          subscriber_pages := dupd σ.subscriber_pages (some s) (0, σ.page_size)}

/-- `SockSyncList._socket_unsubscribed`: the base `set.remove` runs first, so a
missing socket raises before `self._subscriber_pages.pop(socket, None)`. -/
def list_socket_unsubscribed (σ : ListState) (s : Nat) :
    ListState × Option PyError :=
  match socket_unsubscribed σ.subscriber_sockets s with
  | (subs', none) =>
    ({σ with subscriber_sockets := subs',
             subscriber_pages := derase σ.subscriber_pages (some s)}, none)
  | (_, some e) => (σ, some e)

/-- State of a `SockSyncFunctionRemote` (`_returns` maps a call id to the
stored `data.get("value", None)`). -/
structure RemoteState where
  subscriber_sockets : List Nat
  returns : Nat → Option (Option Int)
  ignore_returns : List Nat

/-- `SockSyncFunctionRemote.__init__`. -/
def mkRemote : RemoteState := ⟨[], fun _ => none, []⟩

/-- The subscriber loop of `call_remote_all`: mark the current id ignored, send
the call, then generate the next id (counter-modelled uuid). -/
def callRemoteAllLoop : List Nat → List Nat → Nat → List Nat × Nat × List Send
  | [], ign, cur => (ign, cur, [])
  | s :: rest, ign, cur =>
    let ign1 := setAdd ign cur
    let r := callRemoteAllLoop rest ign1 (cur + 1)
    (r.1, r.2.1, (s, Msg.callMsg cur) :: r.2.2)

/-- `SockSyncFunctionRemote.call_remote_all`: fire-and-forget broadcast call.
`ctr` is the uuid counter; the result carries the advanced counter. -/
def call_remote_all (st : RemoteState) (ctr : Nat) :
    RemoteState × Nat × List Send :=
  let r := callRemoteAllLoop st.subscriber_sockets st.ignore_returns ctr
  ({st with ignore_returns := r.1}, r.2.1, r.2.2)

/-- `SockSyncFunctionRemote._handle_func`.  A missing `id` with an originating
socket reports a general error and aborts; with `socket is None` the
subsequent `data["id"]` raises `KeyError`. -/
def remoteHandleFunc (st : RemoteState) (func : String) (data : FPayload)
    (socket : Option Nat) : RemoteState × List Send × Option Msg × Option PyError :=
  match data.id with
  | none =>
    match socket with
    | some s => (st, [(s, Msg.generalError "id is required.")], none, none)
    | none => (st, [], none, some PyError.keyError)
  | some id_ =>
    if func = "call" then (st, [], some (Msg.returnNotCallable id_), none)
    else if func = "return" then
      if id_ ∈ st.ignore_returns then
        ({st with ignore_returns := st.ignore_returns.erase id_}, [], none, none)
      else
        ({st with returns := fun k => if k = id_ then some data.value
                                      else st.returns k}, [], none, none)
    else (st, [], none, none)

/-- State of a `SockSyncFunctionLocal` (the callable modelled on `Option Int`
arguments). -/
structure LocalState where
  subscriber_sockets : List Nat
  function : Option Int → Int

/-- `SockSyncFunctionLocal._handle_func`.  Same missing-`id` behaviour as the
remote variant; a subscribed `call` runs the callable (spawned thread's send
modelled as immediate); `socket.subscribed` on `None` raises. -/
def localHandleFunc (st : LocalState) (func : String) (data : FPayload)
    (socket : Option Nat) : LocalState × List Send × Option Msg × Option PyError :=
  match data.id with
  | none =>
    match socket with
    | some s => (st, [(s, Msg.generalError "id is required.")], none, none)
    | none => (st, [], none, some PyError.keyError)
  | some id_ =>
    if func = "call" then
      match socket with
      | none => (st, [], none, some PyError.attrError)
      | some s =>
        if s ∈ st.subscriber_sockets then
          (st, [(s, Msg.returnMsg id_ (some (st.function data.args)))], none, none)
        else (st, [], none, none)
    else (st, [], none, none)

/-- The spec's id-index invariant: every item's stored id maps to its true
current position in `values`. -/
def idIndexInv (σ : ListState) : Prop :=
  ∀ i : Fin σ.values.length, σ.id_map (σ.values.get i).id = some (i.1 : Int)

instance (σ : ListState) : Decidable (idIndexInv σ) := by
  unfold idIndexInv; infer_instance

/-- Every subscriber has an entry in the window map. -/
def windowInv (σ : ListState) : Prop :=
  ∀ s ∈ σ.subscriber_sockets, (σ.subscriber_pages (some s)).isSome

instance (σ : ListState) : Decidable (windowInv σ) := by
  unfold windowInv; exact List.decidableBAll _ _

/-- Iterated server-side inserts (`ignore_socket=None`). -/
def applyInserts (σ : ListState) : List (Int × Int × String) → ListState
  | [] => σ
  | (ix, v, id_) :: rest => applyInserts (listInsert σ ix v id_ none).1 rest

/-- Well-formed insert sequence: each insert is at an in-bounds index and uses
an id not already present in the list. -/
def insertsWF (σ : ListState) : List (Int × Int × String) → Bool
  | [] => true
  | (ix, v, id_) :: rest =>
    decide (0 ≤ ix) && decide (ix ≤ (σ.values.length : Int)) &&
    σ.values.all (fun it => it.id != id_) &&
    insertsWF (listInsert σ ix v id_ none).1 rest

/-- A concrete three-item list (`pageSize = 2`) with subscriber 1 on page 0 and
subscriber 2 on page 1, used to evaluate the windowed-broadcast rule. -/
def pagedList3 : ListState :=
  ⟨"L", 2,
   dupd (dupd (dupd (fun _ => none) "a" 0) "b" 1) "c" 2,
   [⟨"a", 1⟩, ⟨"b", 2⟩, ⟨"c", 3⟩], 3, 0, [1, 2],
   dupd (dupd (fun _ => none) (some 1) (0, 2)) (some 2) (1, 2)⟩

/-- A concrete one-item list whose subscriber 7 has paged to window `(1, 2)`. -/
def pagedList1 : ListState :=
  ⟨"L", 10, dupd (fun _ => none) "a" 0, [⟨"a", 1⟩], 1, 0, [7],
   dupd (fun _ => none) (some 7) (1, 2)⟩

/-- A remote function group with three subscribers and no pending state. -/
def rstC8 : RemoteState := ⟨[1, 2, 3], fun _ => none, []⟩

/-- The dict-update fold underlying a reindex loop. -/
def applyWrites (m : String → Option Int) (ws : List (String × Int)) :
    String → Option Int :=
  ws.foldl (fun m w => dupd m w.1 w.2) m

/-- The (id, index) pairs a reindex loop writes. -/
def writeList (vs : List SockSyncListItem) (is : List Int) : List (String × Int) :=
  is.filterMap (fun i => (pyGet vs i).map (fun it => (it.id, i)))

/-! ### Helper lemmas -/

theorem intRange_eq_nil {a b : Int} (h : b ≤ a) : intRange a b = [] := by
  unfold intRange
  have : (b - a).toNat = 0 := by omega
  simp [this]

theorem intRange_cons {a b : Int} (h : a < b) :
    intRange a b = a :: intRange (a + 1) b := by
  unfold intRange
  have h1 : (b - a).toNat = (b - (a + 1)).toNat + 1 := by omega
  rw [h1, List.range_succ_eq_map, List.map_cons, List.map_map]
  congr 1
  · simp
  · apply List.map_congr_left
    intro k _
    simp only [Function.comp_apply, Nat.succ_eq_add_one]
    push_cast
    ring

theorem mem_intRange {a b i : Int} : i ∈ intRange a b ↔ a ≤ i ∧ i < b := by
  unfold intRange
  simp only [List.mem_map, List.mem_range]
  constructor
  · rintro ⟨k, hk, rfl⟩
    constructor
    · omega
    · omega
  · rintro ⟨h1, h2⟩
    refine ⟨(i - a).toNat, by omega, by omega⟩

theorem intRange_append_aux (b : Int) (n : Nat) :
    ∀ a : Int, a + n ≤ b → intRange a b = intRange a (a + n) ++ intRange (a + n) b := by
  induction n with
  | zero =>
    intro a _
    simp [intRange_eq_nil (le_refl a)]
  | succ k ih =>
    intro a h
    have e : a + ((k + 1 : Nat) : Int) = (a + 1) + (k : Nat) := by push_cast; ring
    rw [e] at h ⊢
    rw [intRange_cons (by omega : a < b),
      intRange_cons (by omega : a < a + 1 + (k : Nat)), List.cons_append]
    congr 1
    exact ih (a + 1) h

theorem intRange_append {a p b : Int} (h1 : a ≤ p) (h2 : p ≤ b) :
    intRange a b = intRange a p ++ intRange p b := by
  have hp : p = a + ((p - a).toNat : Int) := by omega
  rw [hp] at h2 ⊢
  exact intRange_append_aux b _ a h2

theorem applyWrites_nil (m : String → Option Int) : applyWrites m [] = m := rfl

theorem applyWrites_cons (m : String → Option Int) (w : String × Int)
    (ws : List (String × Int)) :
    applyWrites m (w :: ws) = applyWrites (dupd m w.1 w.2) ws := rfl

theorem applyWrites_append (m : String → Option Int) (l1 l2 : List (String × Int)) :
    applyWrites m (l1 ++ l2) = applyWrites (applyWrites m l1) l2 := by
  unfold applyWrites
  exact List.foldl_append _ _ _ _

theorem applyWrites_not_mem {k : String} {ws : List (String × Int)}
    (h : k ∉ ws.map Prod.fst) (m : String → Option Int) :
    applyWrites m ws k = m k := by
  induction ws generalizing m with
  | nil => rfl
  | cons w rest ih =>
    simp only [List.map_cons, List.mem_cons] at h
    push_neg at h
    rw [applyWrites_cons, ih h.2]
    unfold dupd
    rw [if_neg h.1]

theorem applyWrites_last {k : String} {v : Int} {l1 l2 : List (String × Int)}
    (h : k ∉ l2.map Prod.fst) (m : String → Option Int) :
    applyWrites m (l1 ++ (k, v) :: l2) k = some v := by
  rw [applyWrites_append, applyWrites_cons, applyWrites_not_mem h]
  unfold dupd
  rw [if_pos rfl]

theorem reindexLoop_of_valid {vs : List SockSyncListItem} {is : List Int}
    (h : ∀ i ∈ is, (pyGet vs i).isSome) (m : String → Option Int) :
    reindexLoop vs m is = (applyWrites m (writeList vs is), none) := by
  induction is generalizing m with
  | nil => rfl
  | cons i rest ih =>
    have hi : (pyGet vs i).isSome := h i (List.mem_cons_self _ _)
    obtain ⟨it, hit⟩ := Option.isSome_iff_exists.mp hi
    have hrest : ∀ j ∈ rest, (pyGet vs j).isSome := fun j hj =>
      h j (List.mem_cons_of_mem _ hj)
    unfold reindexLoop writeList
    rw [hit]
    simp only [List.filterMap_cons, hit, Option.map_some']
    rw [ih hrest]
    rfl

theorem mem_writeList_fst {vs : List SockSyncListItem} {is : List Int} {k : String}
    (h : k ∈ (writeList vs is).map Prod.fst) :
    ∃ i ∈ is, ∃ it, pyGet vs i = some it ∧ it.id = k := by
  unfold writeList at h
  simp only [List.map_filterMap, List.mem_filterMap] at h
  obtain ⟨i, hi, hmap⟩ := h
  rcases hg : pyGet vs i with _ | it
  · rw [hg] at hmap; simp at hmap
  · rw [hg] at hmap
    simp only [Option.map_some'] at hmap
    exact ⟨i, hi, it, hg, by simpa using hmap⟩

theorem pyGet_eq_getElem {α : Type} (l : List α) (i : Int) (h0 : 0 ≤ i)
    (h1 : i.toNat < l.length) : pyGet l i = some (l[i.toNat]) := by
  unfold pyGet pyIdx
  rw [if_pos h0, if_pos (by omega : i < (l.length : Int))]
  simp [List.get?_eq_getElem?, List.getElem?_eq_getElem h1]

theorem pyGet_isSome_of_bounds {α : Type} (l : List α) (i : Int) (h0 : 0 ≤ i)
    (h1 : i < (l.length : Int)) : (pyGet l i).isSome := by
  rw [pyGet_eq_getElem l i h0 (by omega)]
  rfl

theorem pyGet_natCast {α : Type} (l : List α) (p : Nat) (hp : p < l.length) :
    pyGet l (p : Int) = some (l[p]) := by
  have h := pyGet_eq_getElem l (p : Int) (Int.natCast_nonneg p) (by simpa using hp)
  simpa using h

theorem writeList_append (vs : List SockSyncListItem) (l1 l2 : List Int) :
    writeList vs (l1 ++ l2) = writeList vs l1 ++ writeList vs l2 := by
  unfold writeList
  exact List.filterMap_append _ _ _

theorem writeList_cons_of_get {vs : List SockSyncListItem} {i : Int}
    {it : SockSyncListItem} (h : pyGet vs i = some it) (l : List Int) :
    writeList vs (i :: l) = (it.id, i) :: writeList vs l := by
  unfold writeList
  simp [h]

/-- Full case analysis for reading an element of `insertIdx`. -/
theorem getElem_insertIdx_cases {α : Type} (l : List α) (x : α) (n : Nat)
    (hn : n ≤ l.length) (j : Nat) (hj : j < (l.insertIdx n x).length)
    (hj2 : j < l.length + 1) :
    (l.insertIdx n x)[j] =
      if h : j < n then l[j]
      else if h2 : j = n then x
      else l[j - 1] := by
  rcases lt_trichotomy j n with h | h | h
  · rw [dif_pos h]
    exact List.getElem_insertIdx_of_lt l x n j h (by omega)
  · subst h
    rw [dif_neg (lt_irrefl j), dif_pos rfl]
    exact List.getElem_insertIdx_self l x j hn
  · obtain ⟨k, rfl⟩ : ∃ k, j = n + k + 1 := ⟨j - n - 1, by omega⟩
    rw [dif_neg (by omega), dif_neg (by omega)]
    have hk : n + k < l.length := by
      rw [List.length_insertIdx n l hn] at hj; omega
    have h3 := List.getElem_insertIdx_add_succ l x n k hk
    simp only [show n + k + 1 - 1 = n + k from by omega]
    exact h3

/-- Index-based reformulation of the id-index invariant. -/
theorem idIndexInv_iff (σ : ListState) :
    idIndexInv σ ↔ ∀ (p : Nat) (hp : p < σ.values.length),
      σ.id_map (σ.values[p]).id = some (p : Int) := by
  unfold idIndexInv
  constructor
  · intro h p hp
    simpa using h ⟨p, hp⟩
  · intro h i
    simpa using h i.1 i.2

/-- The id-index invariant forces distinct items to carry distinct ids. -/
theorem idIndexInv_inj {σ : ListState} (h : idIndexInv σ) {p q : Nat}
    (hp : p < σ.values.length) (hq : q < σ.values.length)
    (he : (σ.values[p]).id = (σ.values[q]).id) : p = q := by
  have h1 := (idIndexInv_iff σ).mp h p hp
  have h2 := (idIndexInv_iff σ).mp h q hq
  rw [he] at h1
  rw [h1] at h2
  have := Option.some.inj h2
  omega

/-- Whatever the broadcast outcome, `listInsert` leaves the inserted list and
the reindexed map in the state it returns. -/
theorem listInsert_state (σ : ListState) (ix v : Int) (id_ : String)
    (ign : Option Nat) :
    (listInsert σ ix v id_ ign).1.values
        = σ.values.insertIdx (pyInsertPos σ.values.length ix) ⟨id_, v⟩ ∧
    (listInsert σ ix v id_ ign).1.id_map
        = (reindexLoop (σ.values.insertIdx (pyInsertPos σ.values.length ix) ⟨id_, v⟩)
            σ.id_map
            (intRange ix
              ((σ.values.insertIdx (pyInsertPos σ.values.length ix) ⟨id_, v⟩).length : Int))).1 := by
  unfold listInsert
  rcases hr : reindexLoop (σ.values.insertIdx (pyInsertPos σ.values.length ix) ⟨id_, v⟩)
      σ.id_map
      (intRange ix
        ((σ.values.insertIdx (pyInsertPos σ.values.length ix) ⟨id_, v⟩).length : Int))
    with ⟨m', e⟩
  rcases e with _ | e
  · rcases hs : (send_json_page
        {σ with values := σ.values.insertIdx (pyInsertPos σ.values.length ix) ⟨id_, v⟩,
                id_map := m'} id_ (Msg.insertMsg id_ v ix) ign).2 with _ | e2
    · simp [hr, hs]
    · simp [hr, hs]
  · simp [hr]

/-- In-bounds insert with a fresh id preserves the id-index invariant
(the `insert` reindex loop covers the whole suffix from the raw index). -/
theorem insert_step {σ : ListState} {ix v : Int} {id_ : String}
    (hinv : idIndexInv σ) (h0 : 0 ≤ ix) (h1 : ix ≤ (σ.values.length : Int))
    (hfresh : ∀ it ∈ σ.values, it.id ≠ id_) (ign : Option Nat) :
    idIndexInv (listInsert σ ix v id_ ign).1 := by
  obtain ⟨j, rfl⟩ : ∃ j : Nat, ix = (j : Int) := ⟨ix.toNat, by omega⟩
  have hjn : j ≤ σ.values.length := by exact_mod_cast h1
  obtain ⟨hval, hmap⟩ := listInsert_state σ (j : Int) v id_ ign
  have hpos : pyInsertPos σ.values.length (j : Int) = j := by
    unfold pyInsertPos
    rw [if_neg (by omega)]
    omega
  rw [hpos] at hval hmap
  set n := σ.values.length with hn
  set vals := σ.values.insertIdx j ⟨id_, v⟩ with hvals
  have hlen : vals.length = n + 1 := List.length_insertIdx j σ.values hjn
  have hvalid : ∀ i ∈ intRange (j : Int) (vals.length : Int), (pyGet vals i).isSome := by
    intro i hi
    rw [mem_intRange] at hi
    exact pyGet_isSome_of_bounds vals i (by omega) hi.2
  rw [reindexLoop_of_valid hvalid] at hmap
  replace hmap : (listInsert σ (j : Int) v id_ ign).1.id_map
      = applyWrites σ.id_map (writeList vals (intRange (j : Int) (vals.length : Int))) :=
    hmap
  -- distinctness of ids in the inserted list
  have hinj : ∀ (p q : Nat) (hp : p < n) (hq : q < n),
      (σ.values[p]).id = (σ.values[q]).id → p = q := fun p q hp hq he =>
    idIndexInv_inj hinv hp hq he
  have hgetc : ∀ (p : Nat) (hp : p < n + 1) (hpv : p < vals.length), vals[p] =
      if h : p < j then σ.values[p]
      else if h2 : p = j then ⟨id_, v⟩
      else σ.values[p - 1] := by
    intro p hp hpv
    exact getElem_insertIdx_cases σ.values ⟨id_, v⟩ j hjn p
      (by rw [← hvals, hlen]; omega) (by omega)
  have hids : ∀ (p q : Nat) (hp : p < n + 1) (hq : q < n + 1), p ≠ q →
      (vals[p]).id ≠ (vals[q]).id := by
    intro p q hp hq hne
    rw [hgetc p hp (by omega), hgetc q hq (by omega)]
    rcases lt_trichotomy p j with hpj | hpj | hpj <;>
      rcases lt_trichotomy q j with hqj | hqj | hqj
    · rw [dif_pos hpj, dif_pos hqj]
      exact fun he => hne (hinj p q (by omega) (by omega) he)
    · subst hqj
      rw [dif_pos hpj, dif_neg (lt_irrefl q), dif_pos rfl]
      exact hfresh _ (List.getElem_mem _)
    · rw [dif_pos hpj, dif_neg (by omega), dif_neg (by omega)]
      exact fun he => hne (by have := hinj p (q - 1) (by omega) (by omega) he; omega)
    · subst hpj
      rw [dif_neg (lt_irrefl p), dif_pos rfl, dif_pos hqj]
      exact fun he => hfresh _ (List.getElem_mem _) he.symm
    · omega
    · subst hpj
      rw [dif_neg (lt_irrefl p), dif_pos rfl, dif_neg (by omega), dif_neg (by omega)]
      exact fun he => hfresh _ (List.getElem_mem _) he.symm
    · rw [dif_neg (by omega), dif_neg (by omega), dif_pos hqj]
      exact fun he => hne (by have := hinj (p - 1) q (by omega) (by omega) he; omega)
    · subst hqj
      rw [dif_neg (by omega), dif_neg (by omega), dif_neg (lt_irrefl q), dif_pos rfl]
      exact hfresh _ (List.getElem_mem _)
    · rw [dif_neg (by omega), dif_neg (by omega), dif_neg (by omega), dif_neg (by omega)]
      exact fun he => hne (by have := hinj (p - 1) (q - 1) (by omega) (by omega) he; omega)
  -- prove the invariant on the returned state
  rw [idIndexInv_iff]
  intro p hp
  rw [hval] at hp
  rw [hlen] at hp
  have hpv : p < vals.length := by omega
  have hpL : p < (listInsert σ (j : Int) v id_ ign).1.values.length := by
    rw [hval, hlen]; omega
  have hread : (listInsert σ (j : Int) v id_ ign).1.values[p] = vals[p] := by
    congr 1
  rw [hread, hmap]
  -- split on the position relative to the insertion point
  by_cases hpj : j ≤ p
  · -- the reindex loop wrote this id last at position p
    have hsplit : intRange (j : Int) (vals.length : Int) =
        intRange (j : Int) (p : Int) ++
          ((p : Int) :: intRange ((p : Int) + 1) (vals.length : Int)) := by
      rw [← intRange_cons (by rw [hlen]; omega : (p : Int) < (vals.length : Int))]
      exact intRange_append (by omega) (by rw [hlen]; omega)
    rw [hsplit, writeList_append,
      writeList_cons_of_get (pyGet_natCast vals p (by omega))]
    apply applyWrites_last
    intro hmem
    obtain ⟨i, hi, it, hgi, hid⟩ := mem_writeList_fst hmem
    rw [mem_intRange] at hi
    have hhi : i = ((i.toNat : Nat) : Int) := by omega
    rw [hhi] at hgi
    rw [pyGet_natCast vals i.toNat (by omega)] at hgi
    have hitv : it = vals[i.toNat] := Option.some.inj hgi.symm
    rw [hitv] at hid
    exact hids i.toNat p (by omega) (by omega) (by omega) hid
  · -- untouched prefix: the old binding survives
    push_neg at hpj
    have hnotmem : (vals[p]).id ∉
        (writeList vals (intRange (j : Int) (vals.length : Int))).map Prod.fst := by
      intro hmem
      obtain ⟨i, hi, it, hgi, hid⟩ := mem_writeList_fst hmem
      rw [mem_intRange] at hi
      have hhi : i = ((i.toNat : Nat) : Int) := by omega
      rw [hhi] at hgi
      rw [pyGet_natCast vals i.toNat (by omega)] at hgi
      have hitv : it = vals[i.toNat] := Option.some.inj hgi.symm
      rw [hitv] at hid
      exact hids i.toNat p (by omega) (by omega) (by omega) hid
    rw [applyWrites_not_mem hnotmem]
    have hold : vals[p] = σ.values[p] := by
      rw [hgetc p (by omega) (by omega), dif_pos hpj]
    rw [hold]
    exact (idIndexInv_iff σ).mp hinv p (by omega)

/-- Any sequence of in-bounds fresh-id inserts preserves the id-index
invariant. -/
theorem insertsWF_preserves {σ : ListState} {ops : List (Int × Int × String)}
    (hinv : idIndexInv σ) (hwf : insertsWF σ ops = true) :
    idIndexInv (applyInserts σ ops) := by
  induction ops generalizing σ with
  | nil => exact hinv
  | cons op rest ih =>
    obtain ⟨ix, v, id_⟩ := op
    unfold insertsWF at hwf
    simp only [Bool.and_eq_true, decide_eq_true_eq, List.all_eq_true,
      bne_iff_ne] at hwf
    obtain ⟨⟨⟨hw0, hw1⟩, hw2⟩, hw3⟩ := hwf
    unfold applyInserts
    exact ih (insert_step hinv hw0 hw1 (fun it hit => hw2 it hit) none) hw3

theorem pyPop_natCast {α : Type} (l : List α) (p : Nat) (hp : p < l.length) :
    pyPop l (p : Int) = some (l.eraseIdx p) := by
  unfold pyPop pyIdx
  rw [if_pos (Int.natCast_nonneg p), if_pos (by exact_mod_cast hp)]
  simp

/-- `delete` of a present id (unique by the invariant) always raises
`KeyError` inside `_send_json_page` and sends nothing: the id was popped from
the id map just before the broadcast looks it up. -/
theorem listDelete_raises {σ : ListState} {id_ : String} {p : Nat}
    (hinv : idIndexInv σ) (hp : p < σ.values.length)
    (hid : (σ.values[p]).id = id_) (ign : Option Nat) :
    (listDelete σ id_ ign).2 = ([], some PyError.keyError) := by
  have hlook : σ.id_map id_ = some (p : Int) := by
    have h := (idIndexInv_iff σ).mp hinv p hp
    rw [hid] at h
    exact h
  set n := σ.values.length with hn
  set vals := σ.values.eraseIdx p with hvals
  have hlen : vals.length = n - 1 := by
    rw [hvals]
    exact List.length_eraseIdx_of_lt hp
  have hvalid : ∀ i ∈ intRange (p : Int) ((vals.length : Int) - 1),
      (pyGet vals i).isSome := by
    intro i hi
    rw [mem_intRange] at hi
    exact pyGet_isSome_of_bounds vals i (by omega) (by omega)
  have hnotmem : id_ ∉
      (writeList vals (intRange (p : Int) ((vals.length : Int) - 1))).map Prod.fst := by
    intro hmem
    obtain ⟨i, hi, it, hgi, hidw⟩ := mem_writeList_fst hmem
    rw [mem_intRange] at hi
    have hhi : i = ((i.toNat : Nat) : Int) := by omega
    rw [hhi] at hgi
    rw [pyGet_natCast vals i.toNat (by omega)] at hgi
    have hit : it = vals[i.toNat] := Option.some.inj hgi.symm
    have hrd : vals[i.toNat] = σ.values[i.toNat + 1] :=
      List.getElem_eraseIdx_of_ge σ.values p i.toNat
        (by simp only [← hvals]; omega) (by omega)
    rw [hit, hrd] at hidw
    rw [← hid] at hidw
    have := idIndexInv_inj hinv (by omega) hp hidw
    omega
  have hwr : applyWrites (derase σ.id_map id_)
      (writeList vals (intRange (p : Int) ((vals.length : Int) - 1))) id_ = none := by
    rw [applyWrites_not_mem hnotmem]
    unfold derase
    rw [if_pos rfl]
  unfold listDelete
  rw [hlook]
  simp only
  rw [pyPop_natCast σ.values p hp]
  simp only
  rw [← hvals, reindexLoop_of_valid hvalid]
  simp only [send_json_page, hwr]

theorem sendPageLoop_no_error {pages : Option Nat → Option (Int × Int)}
    {subs : List Nat} (h : ∀ s ∈ subs, (pages (some s)).isSome)
    (idx : Int) (j : Msg) (ign : Option Nat) :
    (sendPageLoop pages idx j ign subs).2 = none := by
  induction subs with
  | nil => rfl
  | cons t rest ih =>
    obtain ⟨⟨page, psz⟩, hw⟩ :=
      Option.isSome_iff_exists.mp (h t (List.mem_cons_self _ _))
    have hrest := ih (fun s hs => h s (List.mem_cons_of_mem _ hs))
    unfold sendPageLoop
    rw [hw]
    simp only
    split
    · exact hrest
    · exact hrest

theorem sendPageLoop_fst_mem {pages : Option Nat → Option (Int × Int)}
    {subs : List Nat} {idx : Int} {j : Msg} {ign : Option Nat} {e : Send}
    (he : e ∈ (sendPageLoop pages idx j ign subs).1) : e.1 ∈ subs := by
  induction subs with
  | nil => simp [sendPageLoop] at he
  | cons t rest ih =>
    unfold sendPageLoop at he
    rcases hw : pages (some t) with _ | w
    · rw [hw] at he
      simp at he
    · rcases w with ⟨page, psz⟩
      rw [hw] at he
      simp only at he
      split at he
      · rcases List.mem_cons.mp he with heq | hmem
        · rw [heq]
          exact List.mem_cons_self _ _
        · exact List.mem_cons_of_mem _ (ih hmem)
      · exact List.mem_cons_of_mem _ (ih he)

theorem sendPageLoop_mem_iff {pages : Option Nat → Option (Int × Int)}
    {subs : List Nat} (hval : ∀ s ∈ subs, (pages (some s)).isSome)
    {s : Nat} {page p : Int} (hp : pages (some s) = some (page, p))
    (hs : s ∈ subs) (idx : Int) (j : Msg) (ign : Option Nat) :
    (s, j) ∈ (sendPageLoop pages idx j ign subs).1 ↔
      (some s ≠ ign ∧ page * p ≤ idx ∧ idx < page * p + p) := by
  induction subs with
  | nil => cases hs
  | cons t rest ih =>
    obtain ⟨⟨pgt, pst⟩, hw⟩ :=
      Option.isSome_iff_exists.mp (hval t (List.mem_cons_self _ _))
    have hvrest : ∀ x ∈ rest, (pages (some x)).isSome := fun x hx =>
      hval x (List.mem_cons_of_mem _ hx)
    unfold sendPageLoop
    rw [hw]
    simp only
    by_cases hc : some t ≠ ign ∧ pgt * pst ≤ idx ∧ idx < pgt * pst + pst
    · rw [if_pos hc]
      constructor
      · intro hmem
        rcases List.mem_cons.mp hmem with heq | hmem'
        · have hst : s = t := by
            have := congrArg Prod.fst heq
            simpa using this
          subst hst
          rw [hp] at hw
          have h1 := Option.some.inj hw
          rw [Prod.mk.injEq] at h1
          obtain ⟨h1a, h1b⟩ := h1
          subst h1a
          subst h1b
          exact hc
        · exact (ih hvrest (sendPageLoop_fst_mem hmem')).mp hmem'
      · intro hcond
        rcases eq_or_ne s t with rfl | hne
        · exact List.mem_cons_self _ _
        · have hsrest : s ∈ rest := by
            rcases List.mem_cons.mp hs with h | h
            · exact absurd h hne
            · exact h
          exact List.mem_cons_of_mem _ ((ih hvrest hsrest).mpr hcond)
    · rw [if_neg hc]
      constructor
      · intro hmem
        exact (ih hvrest (sendPageLoop_fst_mem hmem)).mp hmem
      · intro hcond
        rcases eq_or_ne s t with rfl | hne
        · rw [hp] at hw
          have h1 := Option.some.inj hw
          rw [Prod.mk.injEq] at h1
          obtain ⟨h1a, h1b⟩ := h1
          subst h1a
          subst h1b
          exact absurd hcond hc
        · have hsrest : s ∈ rest := by
            rcases List.mem_cons.mp hs with h | h
            · exact absurd h hne
            · exact h
          exact (ih hvrest hsrest).mpr hcond

theorem mem_setAdd_self (s : List Nat) (x : Nat) : x ∈ setAdd s x := by
  unfold setAdd
  split
  · assumption
  · exact List.mem_cons_self _ _

theorem mem_setAdd_of_mem {s : List Nat} {y : Nat} (h : y ∈ s) (x : Nat) :
    y ∈ setAdd s x := by
  unfold setAdd
  split
  · exact h
  · exact List.mem_cons_of_mem _ h

theorem callRemoteAllLoop_ign_mono {subs ign : List Nat} {cur x : Nat}
    (h : x ∈ ign) : x ∈ (callRemoteAllLoop subs ign cur).1 := by
  induction subs generalizing ign cur with
  | nil => exact h
  | cons t rest ih => exact ih (mem_setAdd_of_mem h cur)

theorem callRemoteAllLoop_fst (subs : List Nat) :
    ∀ (ign : List Nat) (cur : Nat),
      (callRemoteAllLoop subs ign cur).2.2.map Prod.fst = subs := by
  induction subs with
  | nil => intro ign cur; rfl
  | cons t rest ih =>
    intro ign cur
    unfold callRemoteAllLoop
    simp only [List.map_cons]
    rw [ih]

theorem callRemoteAllLoop_snd (subs : List Nat) :
    ∀ (ign : List Nat) (cur : Nat),
      (callRemoteAllLoop subs ign cur).2.2.map Prod.snd
        = (List.range subs.length).map (fun k => Msg.callMsg (cur + k)) := by
  induction subs with
  | nil => intro ign cur; rfl
  | cons t rest ih =>
    intro ign cur
    unfold callRemoteAllLoop
    simp only [List.map_cons, List.length_cons, List.range_succ_eq_map,
      List.map_map]
    rw [ih]
    have htail : ∀ k ∈ List.range rest.length,
        Msg.callMsg (cur + 1 + k) = ((fun k => Msg.callMsg (cur + k)) ∘ Nat.succ) k := by
      intro k _
      simp only [Function.comp_apply, Nat.succ_eq_add_one]
      congr 1
      omega
    rw [List.map_congr_left htail]
    simp

theorem callRemoteAllLoop_ids_ignored {subs : List Nat} {e : Send} :
    ∀ {ign : List Nat} {cur : Nat},
      e ∈ (callRemoteAllLoop subs ign cur).2.2 →
      ∃ i, e.2 = Msg.callMsg i ∧ i ∈ (callRemoteAllLoop subs ign cur).1 := by
  induction subs with
  | nil => intro ign cur he; cases he
  | cons t rest ih =>
    intro ign cur he
    unfold callRemoteAllLoop at he ⊢
    simp only at he ⊢
    rcases List.mem_cons.mp he with heq | hmem
    · refine ⟨cur, by rw [heq], ?_⟩
      exact callRemoteAllLoop_ign_mono (mem_setAdd_self ign cur)
    · exact ih hmem

theorem remote_return_ignored {st : RemoteState} {i : Nat}
    (h : i ∈ st.ignore_returns) {data : FPayload} (hid : data.id = some i)
    (sock : Option Nat) :
    remoteHandleFunc st "return" data sock
      = ({st with ignore_returns := st.ignore_returns.erase i}, [], none, none) := by
  unfold remoteHandleFunc
  rw [hid]
  simp only [if_true]
  rw [if_pos h, if_neg (by decide : ¬("return" = "call"))]

/-! ### Claim theorems -/

/-- Claim C1, counterexample: after inserting "a","b","c" at 0,1,2 and deleting
"a", item "c" sits at position 1 but its stored index is still 2 — the delete
reindex loop `range(index, len(values) - 1)` stops one item short, so the
id-to-position map does not send every item's id to its true position. -/
theorem C1_counterexample :
    ¬ idIndexInv (listDelete (applyInserts (mkList "L" 10)
        [((0 : Int), (10 : Int), "a"), (1, 20, "b"), (2, 30, "c")]) "a" none).1 ∧
    (listDelete (applyInserts (mkList "L" 10)
        [((0 : Int), (10 : Int), "a"), (1, 20, "b"), (2, 30, "c")]) "a" none).1.values
      = [⟨"b", 20⟩, ⟨"c", 30⟩] ∧
    (listDelete (applyInserts (mkList "L" 10)
        [((0 : Int), (10 : Int), "a"), (1, 20, "b"), (2, 30, "c")]) "a" none).1.id_map "c"
      = some 2 := by
  refine ⟨by decide, by decide, by decide⟩

/-- Claim C1, amended: for every List satisfying the id-index invariant and
every finite sequence of insert operations at in-bounds indices with fresh
ids, the id-to-position map afterwards sends every item's id to the item's
true current position; delete (whose reindex loop stops one item short of the
tail) is excluded, as is any out-of-range insert index. -/
theorem C1_insert_sequences_preserve_idIndex (σ : ListState)
    (ops : List (Int × Int × String)) (hinv : idIndexInv σ)
    (hwf : insertsWF σ ops = true) : idIndexInv (applyInserts σ ops) :=
  insertsWF_preserves hinv hwf

theorem C1_witness :
    idIndexInv (mkList "L" 10) ∧
    insertsWF (mkList "L" 10) [((0 : Int), (1 : Int), "a"), (1, 2, "b"), (0, 3, "c")]
      = true ∧
    idIndexInv (applyInserts (mkList "L" 10)
      [((0 : Int), (1 : Int), "a"), (1, 2, "b"), (0, 3, "c")]) :=
  ⟨by decide, by decide,
   C1_insert_sequences_preserve_idIndex (mkList "L" 10)
     [((0 : Int), (1 : Int), "a"), (1, 2, "b"), (0, 3, "c")] (by decide) (by decide)⟩

/-- Claim C2: for every List containing an item with id X, `delete(X)` never
completes the broadcast the claim describes: it raises `KeyError` inside
`_send_json_page` (the id was popped from the id map just before the broadcast
looks it up), sends nothing to any subscriber, and never reaches the
`itemCount` decrement. -/
theorem C2_delete_always_raises (σ : ListState) (id_ : String) (p : Nat)
    (ign : Option Nat) (hp : p < σ.values.length) (hinv : idIndexInv σ)
    (hid : (σ.values[p]).id = id_) :
    (listDelete σ id_ ign).2 = ([], some PyError.keyError) :=
  listDelete_raises hinv hp hid ign

theorem C2_witness :
    idIndexInv (listInsert (mkList "L" 10) 0 5 "a" none).1 ∧
    0 < (listInsert (mkList "L" 10) 0 5 "a" none).1.values.length ∧
    (listDelete (listInsert (mkList "L" 10) 0 5 "a" none).1 "a" none).2
      = ([], some PyError.keyError) := by
  refine ⟨by decide, by decide, ?_⟩
  exact C2_delete_always_raises (listInsert (mkList "L" 10) 0 5 "a" none).1 "a" 0 none
    (by decide) (by decide) (by decide)

/-- Claim C4: a wire-originated `insert` command, whatever its payload (index,
value and id present included), is silently ignored: the handler guard tests
`"value" in "data"` — substring containment in the literal string `"data"`,
which is always false — so no item is inserted, nothing is reindexed,
`itemCount` is unchanged and nothing is broadcast. -/
theorem C4_insert_command_ignored (σ : ListState) (data : Payload)
    (socket : Option Nat) :
    listHandleFunc σ "insert" data socket = (σ, [], none, none) := by
  unfold listHandleFunc
  rw [if_neg (by decide : ¬("insert" = "get")),
    if_neg (by decide : ¬("insert" = "set_all")),
    if_neg (fun hcon => absurd hcon.2.2.1
      (by decide : ¬(strContainsSub "data" "value" = true))),
    if_neg (fun hcon => absurd hcon.1 (by decide : ¬("insert" = "set"))),
    if_neg (fun hcon => absurd hcon.1 (by decide : ¬("insert" = "delete")))]

/-- Claim C5, counterexample: unsubscribing a connection that is not in the
subscriber set is not a silent no-op — `set.remove` raises `KeyError`. -/
theorem C5_counterexample :
    socket_unsubscribed [] 0 = ([], some PyError.keyError) := by decide

/-- Claim C5, amended: unsubscribing a connection not in the subscriber set
raises `KeyError` (Python `set.remove`); the subscriber set itself is left
unchanged.  This holds both for the base group and for the List override
(whose window cleanup is skipped because the base `remove` raises first). -/
theorem C5_unsubscribe_missing_raises (subs : List Nat) (σ : ListState) (s : Nat)
    (h1 : s ∉ subs) (h2 : s ∉ σ.subscriber_sockets) :
    socket_unsubscribed subs s = (subs, some PyError.keyError) ∧
    list_socket_unsubscribed σ s = (σ, some PyError.keyError) := by
  constructor
  · unfold socket_unsubscribed
    rw [if_neg h1]
  · unfold list_socket_unsubscribed socket_unsubscribed
    rw [if_neg h2]

theorem C5_witness :
    (0 : Nat) ∉ ([] : List Nat) ∧ (0 : Nat) ∉ (mkList "L" 10).subscriber_sockets ∧
    (socket_unsubscribed [] 0 = ([], some PyError.keyError) ∧
      list_socket_unsubscribed (mkList "L" 10) 0
        = (mkList "L" 10, some PyError.keyError)) := by
  refine ⟨by decide, by decide, ?_⟩
  exact C5_unsubscribe_missing_raises [] (mkList "L" 10) 0 (by decide) (by decide)

/-- Claim C6, counterexample: a server-internal function command (origin
`None`) lacking the `id` field is not silently ignored — both function
variants raise `KeyError` at `data["id"]`. -/
theorem C6_counterexample :
    (remoteHandleFunc mkRemote "call" {} none).2.2.2 = some PyError.keyError ∧
    (localHandleFunc ⟨[], fun _ => 0⟩ "call" {} none).2.2.2
      = some PyError.keyError :=
  ⟨rfl, rfl⟩

/-- Claim C6, amended: for both function variants and any command payload
lacking `id`: with an originating connection present the handler reports the
general protocol error "id is required." to that connection, changes no state
and aborts; with origin `None` the handler is not silently ignored but raises
`KeyError` at `data["id"]` (still changing no state and sending nothing). -/
theorem C6_missing_id_behaviour (rst : RemoteState) (lst : LocalState)
    (func : String) (data : FPayload) (s : Nat) (h : data.id = none) :
    remoteHandleFunc rst func data (some s)
      = (rst, [(s, Msg.generalError "id is required.")], none, none) ∧
    remoteHandleFunc rst func data none = (rst, [], none, some PyError.keyError) ∧
    localHandleFunc lst func data (some s)
      = (lst, [(s, Msg.generalError "id is required.")], none, none) ∧
    localHandleFunc lst func data none = (lst, [], none, some PyError.keyError) := by
  unfold remoteHandleFunc localHandleFunc
  rw [h]
  exact ⟨rfl, rfl, rfl, rfl⟩

theorem C6_witness :
    (({} : FPayload).id = none) ∧
    (remoteHandleFunc mkRemote "return" {} (some 4)
        = (mkRemote, [(4, Msg.generalError "id is required.")], none, none) ∧
      remoteHandleFunc mkRemote "return" {} none
        = (mkRemote, [], none, some PyError.keyError) ∧
      localHandleFunc ⟨[], fun _ => 0⟩ "return" {} (some 4)
        = (⟨[], fun _ => 0⟩, [(4, Msg.generalError "id is required.")], none, none) ∧
      localHandleFunc ⟨[], fun _ => 0⟩ "return" {} none
        = (⟨[], fun _ => 0⟩, [], none, some PyError.keyError)) :=
  ⟨rfl, C6_missing_id_behaviour mkRemote ⟨[], fun _ => 0⟩ "return" {} 4 rfl⟩

/-- Claim C3: for a mutation broadcast at index `idx` (`_send_json_page`, with
every subscriber holding a stored window), a subscriber with stored window
`(page, p)` receives the message iff `page*p ≤ idx < page*p + p` and it is not
the originating (ignored) connection; out-of-window subscribers receive
nothing. -/
theorem C3_window_broadcast_iff (σ : ListState) (id_ : String) (j : Msg)
    (ign : Option Nat) (idx : Int) (s : Nat) (page p : Int)
    (hw : windowInv σ) (hidx : σ.id_map id_ = some idx)
    (hs : s ∈ σ.subscriber_sockets)
    (hsp : σ.subscriber_pages (some s) = some (page, p)) :
    ((s, j) ∈ (send_json_page σ id_ j ign).1 ↔
      (page * p ≤ idx ∧ idx < page * p + p ∧ some s ≠ ign)) := by
  unfold send_json_page
  rw [hidx]
  rw [sendPageLoop_mem_iff hw hsp hs idx j ign]
  tauto

theorem C3_witness :
    windowInv pagedList3 ∧ pagedList3.id_map "c" = some 2 ∧
    2 ∈ pagedList3.subscriber_sockets ∧
    pagedList3.subscriber_pages (some 2) = some (1, 2) ∧
    (((2 : Nat), Msg.deleteMsg "x")
        ∈ (send_json_page pagedList3 "c" (Msg.deleteMsg "x") none).1 ↔
      ((1 : Int) * 2 ≤ 2 ∧ (2 : Int) < 1 * 2 + 2 ∧
        (some 2 : Option Nat) ≠ none)) := by
  refine ⟨by decide, by decide, by decide, by decide, ?_⟩
  exact C3_window_broadcast_iff pagedList3 "c" (Msg.deleteMsg "x") none 2 2 1 2
    (by decide) (by decide) (by decide) (by decide)

/-- Claim C7, counterexample: a wire `get` carrying an unknown id does change
the List's state — the requester's stored window (part of the List's state) is
recomputed from the payload before the id check, here resetting it from
`(1, 2)` to the default `(0, 10)`. -/
theorem C7_counterexample :
    (listHandleFunc pagedList1 "get" {id := some "zzz"} (some 7)).1.subscriber_pages
        (some 7)
      ≠ pagedList1.subscriber_pages (some 7) := by decide

/-- Claim C7, amended: a wire `get` whose id is not in the id map sends
exactly one name error to the requesting connection and returns no payload
and raises nothing, and items, id map, count, current page and subscribers
are unchanged — but the requester's stored window is recomputed from the
payload's `page`/`page_size` (with defaults) before the id check, so the
List's state is not left entirely unchanged. -/
theorem C7_unknown_id_get (σ : ListState) (data : Payload) (s : Nat)
    (id_ : String) (hid : data.id = some id_) (hun : σ.id_map id_ = none)
    (hper : min σ.page_size (data.page_size.getD σ.page_size) ≠ 0) :
    listHandleFunc σ "get" data (some s)
      = ({σ with subscriber_pages := (dupd σ.subscriber_pages (some s)
            (max 0 (min (data.page.getD 0)
                (numPages σ.values.length
                  (min σ.page_size (data.page_size.getD σ.page_size)) - 1)),
             min σ.page_size (data.page_size.getD σ.page_size)))},
         [(s, Msg.nameError "list" σ.name id_)], none, none) := by
  unfold listHandleFunc
  rw [if_pos rfl]
  unfold handleGet
  simp only [hid, hun]
  rw [if_neg hper]

theorem C7_witness :
    (({id := some "zzz"} : Payload).id = some "zzz") ∧
    pagedList1.id_map "zzz" = none ∧
    min pagedList1.page_size
      (({id := some "zzz"} : Payload).page_size.getD pagedList1.page_size) ≠ 0 ∧
    listHandleFunc pagedList1 "get" {id := some "zzz"} (some 7)
      = ({pagedList1 with subscriber_pages := (dupd pagedList1.subscriber_pages (some 7)
            (max 0 (min (({id := some "zzz"} : Payload).page.getD 0)
                (numPages pagedList1.values.length
                  (min pagedList1.page_size
                    (({id := some "zzz"} : Payload).page_size.getD pagedList1.page_size)) - 1)),
             min pagedList1.page_size
               (({id := some "zzz"} : Payload).page_size.getD pagedList1.page_size)))},
         [(7, Msg.nameError "list" pagedList1.name "zzz")], none, none) := by
  refine ⟨by decide, by decide, by decide, ?_⟩
  exact C7_unknown_id_get pagedList1 {id := some "zzz"} 7 "zzz" rfl (by decide) (by decide)

/-- Claim C8: `call_remote_all` sends exactly one call message to each of the
subscribed connections, the call-ids sent are pairwise distinct, every sent id
is registered in the ignored set, no return value is stored, and a later
`return` for any of those ids is consumed from the ignored set and discarded
without storing a value, sending anything or raising. -/
theorem C8_remote_call_all (st : RemoteState) (ctr : Nat)
    (hnd : st.subscriber_sockets.Nodup) :
    ((call_remote_all st ctr).2.2.map Prod.fst = st.subscriber_sockets) ∧
    ((call_remote_all st ctr).2.2.map Prod.snd
        = (List.range st.subscriber_sockets.length).map
            (fun k => Msg.callMsg (ctr + k))) ∧
    (∀ s ∈ st.subscriber_sockets,
      ((call_remote_all st ctr).2.2.map Prod.fst).count s = 1) ∧
    ((call_remote_all st ctr).2.2.map Prod.snd).Nodup ∧
    (∀ e ∈ (call_remote_all st ctr).2.2, ∃ i, e.2 = Msg.callMsg i ∧
        i ∈ (call_remote_all st ctr).1.ignore_returns) ∧
    ((call_remote_all st ctr).1.returns = st.returns) ∧
    (∀ e ∈ (call_remote_all st ctr).2.2, ∀ i, e.2 = Msg.callMsg i →
      ∀ data : FPayload, data.id = some i → ∀ sock : Option Nat,
        remoteHandleFunc (call_remote_all st ctr).1 "return" data sock
          = ({(call_remote_all st ctr).1 with
                ignore_returns := (call_remote_all st ctr).1.ignore_returns.erase i},
             [], none, none)) := by
  have hsends : (call_remote_all st ctr).2.2
      = (callRemoteAllLoop st.subscriber_sockets st.ignore_returns ctr).2.2 := rfl
  have hign : (call_remote_all st ctr).1.ignore_returns
      = (callRemoteAllLoop st.subscriber_sockets st.ignore_returns ctr).1 := rfl
  refine ⟨?_, ?_, ?_, ?_, ?_, ?_, ?_⟩
  · rw [hsends, callRemoteAllLoop_fst]
  · rw [hsends, callRemoteAllLoop_snd]
  · intro s hs
    rw [hsends, callRemoteAllLoop_fst]
    exact List.count_eq_one_of_mem hnd hs
  · rw [hsends, callRemoteAllLoop_snd]
    apply List.Nodup.map
    · intro a b hab
      simp only [Msg.callMsg.injEq] at hab
      omega
    · exact List.nodup_range _
  · intro e he
    rw [hsends] at he
    obtain ⟨i, hei, hii⟩ := callRemoteAllLoop_ids_ignored he
    refine ⟨i, hei, ?_⟩
    rw [hign]
    exact hii
  · rfl
  · intro e he i hei data hdat sock
    rw [hsends] at he
    obtain ⟨i2, hei2, hii2⟩ := callRemoteAllLoop_ids_ignored he
    have hi2 : Msg.callMsg i = Msg.callMsg i2 := by rw [← hei, ← hei2]
    have hieq : i = i2 := by
      simpa [Msg.callMsg.injEq] using hi2
    subst hieq
    rw [← hign] at hii2
    exact remote_return_ignored hii2 hdat sock

theorem C8_witness :
    (call_remote_all rstC8 100).2.2.map Prod.fst = rstC8.subscriber_sockets ∧
    (call_remote_all rstC8 100).2.2.map Prod.snd
      = (List.range rstC8.subscriber_sockets.length).map
          (fun k => Msg.callMsg (100 + k)) ∧
    (call_remote_all rstC8 100).1.returns = rstC8.returns :=
  have h := C8_remote_call_all rstC8 100 (by decide)
  ⟨h.1, h.2.1, h.2.2.2.2.2.1⟩

/-- Claim C9: `itemCount` does drift from the number of stored items — the
`set_all` command trusts the payload's `total_item_count` (here 5 against 1
stored item), and `delete` raises before its decrement, leaving the count one
too high after the item is removed. -/
theorem C9_count_drift :
    ((listHandleFunc (mkList "L" 10) "set_all"
        {items := some [⟨some "a", some 0⟩], page := some 0, total_item_count := some 5}
        none).1.count
      ≠ ((listHandleFunc (mkList "L" 10) "set_all"
        {items := some [⟨some "a", some 0⟩], page := some 0, total_item_count := some 5}
        none).1.values.length : Int)) ∧
    ((listDelete (listInsert (mkList "L" 10) 0 7 "z" none).1 "z" none).1.count
      ≠ ((listDelete (listInsert (mkList "L" 10) 0 7 "z" none).1 "z"
            none).1.values.length : Int)) := by
  refine ⟨by decide, by decide⟩

/-- Claim C10: subscribe and unsubscribe preserve the invariant that every
subscriber has a stored window (subscribe installs the default window before
any lookup, unsubscribe removes set entry and window together, raising before
either when the socket is absent), and under that invariant every window
lookup in a windowed broadcast succeeds, so `_send_json_page` raises nothing
once the mutated id resolves. -/
theorem C10_window_map_inv (σ : ListState) (s s2 : Nat) (id_ : String) (j : Msg)
    (ign : Option Nat) (idx : Int) (hw : windowInv σ)
    (hnd : σ.subscriber_sockets.Nodup) :
    windowInv (list_socket_subscribed σ s) ∧
    windowInv (list_socket_unsubscribed σ s2).1 ∧
    (σ.id_map id_ = some idx → (send_json_page σ id_ j ign).2 = none) := by
  refine ⟨?_, ?_, ?_⟩
  · intro t ht
    simp only [list_socket_subscribed] at ht ⊢
    by_cases hts : t = s
    · subst hts
      simp [dupd]
    · unfold dupd
      rw [if_neg (by simpa using hts : ¬(some t = some s))]
      apply hw
      unfold socket_subscribed setAdd at ht
      split at ht
      · exact ht
      · rcases List.mem_cons.mp ht with h | h
        · exact absurd h hts
        · exact h
  · unfold list_socket_unsubscribed socket_unsubscribed
    by_cases hmem : s2 ∈ σ.subscriber_sockets
    · rw [if_pos hmem]
      intro t ht
      simp only at ht
      have ht' := (List.Nodup.mem_erase_iff hnd).mp ht
      simp only
      unfold derase
      rw [if_neg (by simpa using ht'.1 : ¬(some t = some s2))]
      exact hw t ht'.2
    · rw [if_neg hmem]
      exact hw
  · intro hsome
    unfold send_json_page
    rw [hsome]
    exact sendPageLoop_no_error hw idx j ign

theorem C10_witness :
    windowInv pagedList3 ∧ pagedList3.subscriber_sockets.Nodup ∧
    windowInv (list_socket_subscribed pagedList3 5) ∧
    windowInv (list_socket_unsubscribed pagedList3 1).1 ∧
    (send_json_page pagedList3 "b" Msg.pyNone none).2 = none := by
  have h := C10_window_map_inv pagedList3 5 1 "b" Msg.pyNone none 1
    (by decide) (by decide)
  exact ⟨by decide, by decide, h.1, h.2.1, h.2.2 (by decide)⟩

end SockSync
